import Mathlib

/-!
Verification development for a miniature SQL engine (`mini_sql.py`).
The engine parses a restricted `SELECT ... FROM ... [WHERE ...]` syntax,
filters rows of an in-memory table with a single comparison predicate,
and either projects columns or computes `COUNT` aggregates.

The Python source is embedded shallowly:
* Python strings are Lean `String`s, manipulated through their character
  lists (`String.data`), with Python-style index/slice helpers.
* Python `dict` rows become association lists `List (String × String)`;
  `dict.get` with default becomes `rget`.
* `float(...)` is modelled by `pyFloat?`, which follows CPython's accepted
  decimal grammar (sign, digits with underscores, fraction, exponent,
  `inf`/`infinity`/`nan`) and returns an exact value (`PyNum`, rationals
  plus signed infinities and NaN, compared IEEE-style).  Rounding of the
  decimal to a 64-bit float is idealized away: comparisons are exact.
* raised `QueryError`s become `Except` errors carrying a constructor per
  raise site; a Python `IndexError` (reachable in `execute`) is a separate
  constructor of `PyErr`.
-/

/-- The single quote character, `'`. -/
def squote : Char := Char.ofNat 39

/-- The double quote character, `"`. -/
def dquote : Char := Char.ofNat 34

/-- ASCII lowercase of one character (Python `str.lower` restricted to ASCII). -/
def asciiLower (c : Char) : Char :=
  if 'A' ≤ c ∧ c ≤ 'Z' then Char.ofNat (c.toNat + 32) else c

/-- ASCII uppercase of one character (Python `str.upper` restricted to ASCII). -/
def asciiUpper (c : Char) : Char :=
  if 'a' ≤ c ∧ c ≤ 'z' then Char.ofNat (c.toNat - 32) else c

/-- Python `str.upper()` (ASCII fragment; the engine only compares ASCII keywords). -/
def pyUpper (s : String) : String := ⟨s.data.map asciiUpper⟩

/-- Characters stripped by Python `str.strip()` (ASCII whitespace). -/
def pyWs (c : Char) : Bool :=
  c = ' ' ∨ c = '\t' ∨ c = '\n' ∨ c = '\r' ∨ c = Char.ofNat 11 ∨ c = Char.ofNat 12

/-- Strip ASCII whitespace from both ends of a character list. -/
def stripWsL (cs : List Char) : List Char :=
  ((cs.dropWhile pyWs).reverse.dropWhile pyWs).reverse

/-- Python `str.strip()`. -/
def pyStrip (s : String) : String := ⟨stripWsL s.data⟩

/-- Index of the first occurrence of `sub` in `cs` (`none` if absent). -/
def firstIdx (sub : List Char) : List Char → Option Nat
  | [] => if sub.isPrefixOf ([] : List Char) then some 0 else none
  | c :: t =>
    if sub.isPrefixOf (c :: t) then some 0
    else (firstIdx sub t).map (· + 1)

/-- Index of the last occurrence of `sub` in `cs` (`none` if absent). -/
def lastIdx (sub : List Char) : List Char → Option Nat
  | [] => if sub.isPrefixOf ([] : List Char) then some 0 else none
  | c :: t =>
    match lastIdx sub t with
    | some i => some (i + 1)
    | none => if sub.isPrefixOf (c :: t) then some 0 else none

/-- Python `s.find(sub, start)` returning `none` instead of `-1`. -/
def strFindFrom (s sub : String) (start : Nat) : Option Nat :=
  (firstIdx sub.data (s.data.drop start)).map (· + start)

/-- Python `sub in s` (substring containment). -/
def containsSub (s sub : String) : Bool := (strFindFrom s sub 0).isSome

/-- Python `s.find(sub)` with `-1` for absence, as in the source. -/
def findIdxInt (s sub : String) : Int :=
  match strFindFrom s sub 0 with
  | some i => (i : Int)
  | none => -1

/-- Python `s.rfind(sub)` with `-1` for absence. -/
def rfindIdxInt (s sub : String) : Int :=
  match lastIdx sub.data s.data with
  | some i => (i : Int)
  | none => -1

/-- Python slice `s[a:b]` for nonnegative char indices. -/
def strSlice (s : String) (a b : Nat) : String := ⟨(s.data.take b).drop a⟩

/-- Python slice `s[a:]`. -/
def strSliceFrom (s : String) (a : Nat) : String := ⟨s.data.drop a⟩

/-- Python slice `s[i:j]` with possibly negative indices (step 1 semantics). -/
def pySliceI (s : String) (i j : Int) : String :=
  let n : Int := (s.data.length : Int)
  let norm : Int → Nat := fun k => (max 0 (min n (if k < 0 then n + k else k))).toNat
  ⟨(s.data.take (norm j)).drop (norm i)⟩

/-- `pre` is a prefix of `s` (Python `s.startswith(pre)`). -/
def strStarts (s pre : String) : Bool := pre.data.isPrefixOf s.data

/-- `suf` is a suffix of `s` (Python `s.endswith(suf)`). -/
def strEnds (s suf : String) : Bool := suf.data.isSuffixOf s.data

/-! ## The value model of Python `float()` -/

/-- Result of a successful Python `float(...)` call: an exact finite value,
a signed infinity, or NaN.  Comparisons follow IEEE-754 (`nan` is
incomparable and unequal to everything, including itself). -/
inductive PyNum
  | finite (q : ℚ)
  | inf (neg : Bool)
  | nan
deriving DecidableEq

/-- IEEE equality on parsed floats. -/
def pyEqB : PyNum → PyNum → Bool
  | .finite a, .finite b => a = b
  | .inf a, .inf b => a = b
  | _, _ => false

/-- IEEE strict less-than on parsed floats. -/
def pyLtB : PyNum → PyNum → Bool
  | .nan, _ => false
  | _, .nan => false
  | .finite a, .finite b => Rat.blt a b
  | .finite _, .inf neg => !neg
  | .inf neg, .finite _ => neg
  | .inf a, .inf b => a && !b

/-- IEEE less-or-equal on parsed floats. -/
def pyLeB (a b : PyNum) : Bool := pyLtB a b || pyEqB a b

/-- One run of decimal digits with CPython underscore rules (an underscore
must sit between two digits).  Returns the digits collected (underscores
removed) and the unconsumed remainder. -/
def drGo : List Char → List Char → List Char × List Char
  | '_' :: d :: rest, acc =>
    if d.isDigit then drGo rest (d :: acc) else (acc.reverse, '_' :: d :: rest)
  | ['_'], acc => (acc.reverse, ['_'])
  | d :: rest, acc =>
    if d.isDigit then drGo rest (d :: acc) else (acc.reverse, d :: rest)
  | [], acc => (acc.reverse, [])

/-- A digit run that must start with a digit. -/
def parseDigitRun (cs : List Char) : Option (List Char × List Char) :=
  match cs with
  | d :: rest => if d.isDigit then some (drGo rest [d]) else none
  | [] => none

/-- A possibly-empty digit run. -/
def optDigitRun (cs : List Char) : List Char × List Char :=
  match parseDigitRun cs with
  | some p => p
  | none => ([], cs)

/-- Numeric value of a digit list. -/
def digitsVal (ds : List Char) : Nat :=
  ds.foldl (fun a c => a * 10 + (c.toNat - 48)) 0

/-- Exact value of `±(intDs . fracDs) · 10^exp`, built with core rational
operations so that it evaluates inside the kernel. -/
def mkQ (neg : Bool) (intDs fracDs : List Char) (exp : Int) : ℚ :=
  let m : Int := (digitsVal (intDs ++ fracDs) : Int)
  let e : Int := exp - (fracDs.length : Int)
  let v : ℚ :=
    if 0 ≤ e then mkRat (m * ((10 : Nat) ^ e.toNat : Nat)) 1
    else mkRat m ((10 : Nat) ^ (-e).toNat)
  if neg then Rat.neg v else v

/-- Optional sign; returns (isNegative, rest). -/
def takeSign : List Char → Bool × List Char
  | '+' :: r => (false, r)
  | '-' :: r => (true, r)
  | r => (false, r)

/-- The decimal part of the grammar: digits, optional fraction, optional
exponent; the whole remainder must be consumed. -/
def parseNumeric (neg : Bool) (cs : List Char) : Option PyNum :=
  let p1 := optDigitRun cs
  let p2 : Option (List Char) × List Char :=
    match p1.2 with
    | '.' :: r => let q := optDigitRun r; (some q.1, q.2)
    | r => (none, r)
  if p1.1 = [] ∧ (p2.1 = none ∨ p2.1 = some []) then none
  else
    match p2.2 with
    | [] => some (.finite (mkQ neg p1.1 ((p2.1).getD []) 0))
    | e :: r3 =>
      if e = 'e' ∨ e = 'E' then
        let sg := takeSign r3
        match parseDigitRun sg.2 with
        | some (eds, []) =>
          let ev : Int := if sg.1 then -(digitsVal eds : Int) else (digitsVal eds : Int)
          some (.finite (mkQ neg p1.1 ((p2.1).getD []) ev))
        | _ => none
      else none

/-- Model of Python `float(s)`: `some` of the parsed value, `none` when
`float` raises `ValueError`.  (Overflow of huge exponents to `inf` is not
modelled; values stay exact.) -/
def pyFloat? (s : String) : Option PyNum :=
  let cs := stripWsL s.data
  let sg := takeSign cs
  let low := sg.2.map asciiLower
  if low = "inf".data ∨ low = "infinity".data then some (.inf sg.1)
  else if low = "nan".data then some .nan
  else parseNumeric sg.1 sg.2

example : pyFloat? "35" = some (.finite 35) := by decide
example : pyFloat? " -3.5e1 " = some (.finite (-35)) := by decide
example : pyFloat? "1_0" = some (.finite 10) := by decide
example : pyFloat? "x" = none := by decide
example : pyFloat? "" = none := by decide
example : pyFloat? "1_" = none := by decide
example : pyFloat? "Inf" = some (.inf false) := by decide
example : pyFloat? ".5" = some (.finite (mkRat 1 2)) := by decide
example : pyFloat? "5." = some (.finite 5) := by decide
example : pyFloat? "1e2x" = none := by decide

/-! ## Data model and errors -/

/-- A row: Python `dict` from column name to cell text, as an association
list (`rget` looks up the first binding, like a dict with unique keys). -/
abbrev Row := List (String × String)

/-- Python `row.get(col, "")`. -/
def rget (r : Row) (col : String) : String :=
  ((r.find? (fun p => p.1 = col)).map Prod.snd).getD ""

/-- Python `col in row` (dict key membership). -/
def hasKey (r : Row) (col : String) : Bool := r.any (fun p => p.1 = col)

/-- The keys of a row, in order (Python `row.keys()`). -/
def keys (r : Row) : List String := r.map Prod.fst

/-- One constructor per `raise QueryError(...)` site of `mini_sql.py`
(the payload is the value interpolated into the message). -/
inductive QueryError
  | emptyQuery
  | missingClause
  | missingFromAfterSelect
  | emptySelect
  | emptyFrom
  | emptyCountArg
  | unsupportedExpr (item : String)
  | whereQuotes
  | malformedWhere
  | unknownColumnWhere (col : String)
  | invalidOperator (op : String)
  | invalidOperatorForStrings (op : String)
  | mixedAggregate
  | unknownColumnCount (col : String)
  | unknownColumnSelect (col : String)
deriving DecidableEq

/-- The parsed WHERE predicate: `{"col", "op", "val"}`. -/
structure WherePred where
  col : String
  op : String
  val : String
deriving DecidableEq

/-- The result of `parse_query`: `{"select", "from", "where"}`.  Select
items are kept as the strings the source builds (`"*"`, `"COUNT(x)"`,
or a bare column name). -/
structure ParsedQuery where
  select : List String
  fromTable : String
  whereP : Option WherePred
deriving DecidableEq

/-- Errors escaping `execute`: either the engine's `QueryError` or the
Python `IndexError` raised by subscripting an empty list. -/
inductive PyErr
  | qerr (e : QueryError)
  | indexError
deriving DecidableEq

/-- `true` iff the error is the engine's own `QueryError` kind. -/
def PyErr.isQueryErr : PyErr → Bool
  | .qerr _ => true
  | .indexError => false

/-- Result of `execute`: either the printed `COUNT(label) = n` pairs or the
`(filtered rows, projected columns)` handed to the renderer. -/
inductive Output
  | counts (cs : List (String × Nat))
  | table (rows : List Row) (cols : List String)
deriving DecidableEq

instance {ε α : Type} [DecidableEq ε] [DecidableEq α] : DecidableEq (Except ε α) := fun a b =>
  match a, b with
  | .ok x, .ok y => decidable_of_iff (x = y) (by simp)
  | .error e, .error f => decidable_of_iff (e = f) (by simp)
  | .ok _, .error _ => .isFalse (fun h => Except.noConfusion h)
  | .error _, .ok _ => .isFalse (fun h => Except.noConfusion h)

/-! ## Predicate evaluation (`apply_where`, lines 140-184) -/

/-- The body of `apply_where`'s row loop (lines 158-182): decide whether one
row matches the predicate, or fail on an operator that is invalid for the
comparison mode.  Both the cell and the literal are re-parsed as floats for
every row, exactly as `try_float` is called in the source. -/
def rowMatch (row : Row) (w : WherePred) : Except QueryError Bool :=
  match pyFloat? (rget row w.col), pyFloat? w.val with
  | some a, some b =>
    if w.op = ">" then .ok (pyLtB b a)
    else if w.op = "<" then .ok (pyLtB a b)
    else if w.op = ">=" then .ok (pyLeB b a)
    else if w.op = "<=" then .ok (pyLeB a b)
    else if w.op = "=" ∨ w.op = "==" then .ok (pyEqB a b)
    else if w.op = "!=" ∨ w.op = "<>" then .ok (!pyEqB a b)
    else .error (.invalidOperator w.op)
  | _, _ =>
    if w.op = "=" ∨ w.op = "==" then .ok (rget row w.col = w.val)
    else if w.op = "!=" ∨ w.op = "<>" then .ok (!(rget row w.col = w.val : Bool))
    else .error (.invalidOperatorForStrings w.op)

/-- The filtering loop of `apply_where`: keep matching rows in order,
aborting on the first row that raises. -/
def filterLoop : List Row → WherePred → Except QueryError (List Row)
  | [], _ => .ok []
  | r :: rest, w =>
    match rowMatch r w with
    | .error e => .error e
    | .ok true => (filterLoop rest w).map (r :: ·)
    | .ok false => filterLoop rest w

/-- `apply_where(data, where)` (lines 140-184): `None` predicate passes all
rows through; otherwise the predicate column is validated against the first
row (skipped when there is no row) and the row loop runs. -/
def apply_where (data : List Row) (w : Option WherePred) : Except QueryError (List Row) :=
  match w with
  | none => .ok data
  | some wh =>
    match data with
    | [] => filterLoop [] wh
    | r0 :: _ =>
      if hasKey r0 wh.col then filterLoop data wh
      else .error (.unknownColumnWhere wh.col)

example : rowMatch [("age", "35")] ⟨"age", ">", "30"⟩ = .ok true := by decide
example : rowMatch [("age", "25")] ⟨"age", ">", "30"⟩ = .ok false := by decide
example : rowMatch [("name", "A")] ⟨"name", "=", "A"⟩ = .ok true := by decide
example : rowMatch [("age", "35")] ⟨"age", ">", "x"⟩ =
    .error (.invalidOperatorForStrings ">") := by decide
example : apply_where [[("name", "A"), ("age", "25")], [("name", "B"), ("age", "35")]]
    (some ⟨"age", ">", "30"⟩) = .ok [[("name", "B"), ("age", "35")]] := by decide

/-! ## `shlex.split` (posix, whitespace_split), used on the WHERE segment -/

/-- `shlex` whitespace (`shlex.whitespace = " \t\r\n"`). -/
def shWs (c : Char) : Bool := c = ' ' ∨ c = '\t' ∨ c = '\r' ∨ c = '\n'

/-- States of the shlex scanner: outside quotes, in `'...'`, in `"..."`. -/
inductive ShState
  | norm
  | squo
  | dquo
deriving DecidableEq

/-- Close the current token (if one was started) onto the output. -/
def shlexFlush (cur : Option (List Char)) (acc : List String) : List String :=
  match cur with
  | none => acc
  | some t => acc ++ [⟨t.reverse⟩]

/-- The posix `shlex` scanner: whitespace splits tokens, single quotes are
fully literal, double quotes let backslash escape `"` and `\`, a bare
backslash escapes the next character; an unterminated quote or trailing
escape yields `none` (Python's `ValueError`). `cur` holds the current token
reversed, `none` when no token has started. -/
def shlexGo : List Char → ShState → Option (List Char) → List String → Option (List String)
  | [], .norm, cur, acc => some (shlexFlush cur acc)
  | [], .squo, _, _ => none
  | [], .dquo, _, _ => none
  | c :: rest, .norm, cur, acc =>
    if shWs c then shlexGo rest .norm none (shlexFlush cur acc)
    else if c = squote then shlexGo rest .squo (some (cur.getD [])) acc
    else if c = dquote then shlexGo rest .dquo (some (cur.getD [])) acc
    else if c = '\\' then
      match rest with
      | [] => none
      | d :: rest2 => shlexGo rest2 .norm (some (d :: cur.getD [])) acc
    else shlexGo rest .norm (some (c :: cur.getD [])) acc
  | c :: rest, .squo, cur, acc =>
    if c = squote then shlexGo rest .norm cur acc
    else shlexGo rest .squo (some (c :: cur.getD [])) acc
  | c :: rest, .dquo, cur, acc =>
    if c = dquote then shlexGo rest .norm cur acc
    else if c = '\\' then
      match rest with
      | [] => none
      | d :: rest2 =>
        if d = dquote ∨ d = '\\' then shlexGo rest2 .dquo (some (d :: cur.getD [])) acc
        else shlexGo rest2 .dquo (some (d :: '\\' :: cur.getD [])) acc
    else shlexGo rest .dquo (some (c :: cur.getD [])) acc

/-- `shlex.split(s)` (line 114 of the source). -/
def pyShlex (s : String) : Option (List String) := shlexGo s.data .norm none []

/-! ## `parse_query` (lines 39-137) -/

/-- The comma split of the select segment with parenthesis tracking
(`split_select`, lines 69-85): a comma at depth 0 closes the current item;
intermediate items are stripped (and pushed even when empty), the trailing
item only when nonempty after stripping. -/
def splitSelGo : List Char → Int → List Char → List String → List String
  | [], _, cur, parts =>
    if pyStrip ⟨cur.reverse⟩ = "" then parts else parts ++ [pyStrip ⟨cur.reverse⟩]
  | ch :: rest, paren, cur, parts =>
    let paren2 := if ch = '(' then paren + 1 else if ch = ')' then paren - 1 else paren
    if ch = ',' ∧ paren2 = 0 then splitSelGo rest paren2 [] (parts ++ [pyStrip ⟨cur.reverse⟩])
    else splitSelGo rest paren2 (ch :: cur) parts

/-- `split_select(select_part)`. -/
def splitSelect (s : String) : List String := splitSelGo s.data 0 [] []

/-- One select item (lines 90-107): `*`, a `COUNT(<inner>)` aggregate
(normalized to upper-case `COUNT`, inner trimmed), or a bare column; any
other parenthesized item is rejected. -/
def parseSelectItem (it : String) : Except QueryError String :=
  let s := pyStrip it
  if s = "*" then .ok "*"
  else
    let up := pyUpper s
    if strStarts up "COUNT(" ∧ strEnds up ")" then
      let inner := pyStrip (pySliceI s (findIdxInt s "(" + 1) (-1))
      if inner = "" then .error .emptyCountArg else .ok ("COUNT(" ++ inner ++ ")")
    else if containsSub s "(" ∨ containsSub s ")" then .error (.unsupportedExpr s)
    else .ok s

/-- The select-item loop, failing on the first bad item. -/
def parseSelectList : List String → Except QueryError (List String)
  | [] => .ok []
  | it :: rest => do
    let x ← parseSelectItem it
    let xs ← parseSelectList rest
    .ok (x :: xs)

/-- The operator priority order of the fallback scan (line 122):
two-character operators first. -/
def opOrder : List String := [">=", "<=", "!=", ">", "<", "="]

/-- Python `joined.split(op, 1)` restricted to the case `op in joined`:
split at the first occurrence, `none` when absent. -/
def pySplitFirst (j o : String) : Option (String × String) :=
  (firstIdx o.data j.data).map
    (fun i => (⟨j.data.take i⟩, ⟨j.data.drop (i + o.data.length)⟩))

/-- The fallback operator scan (lines 122-130): try each operator in order,
split on the first occurrence of the first one present. -/
def opScanList : List String → String → Option (String × String × String)
  | [], _ => none
  | o :: rest, j =>
    match pySplitFirst j o with
    | some (l, r) => some (l, o, r)
    | none => opScanList rest j

/-- The quote-strip condition of lines 128 and 133: length at least two,
equal first and last characters, both a single or double quote. -/
def isWrapped (v : String) : Bool :=
  match v.data with
  | c :: d :: rest => (c = (d :: rest).getLastD c) ∧ (c = squote ∨ c = dquote)
  | _ => false

/-- `val[1:-1]` when `isWrapped`, the identity otherwise. -/
def stripQuote (v : String) : String :=
  match v.data with
  | c :: d :: rest =>
    if (c = (d :: rest).getLastD c) ∧ (c = squote ∨ c = dquote) then ⟨(d :: rest).dropLast⟩
    else v
  | _ => v

/-- Parsing of a (present) WHERE segment (lines 112-135): shlex-tokenize,
take three tokens positionally, otherwise fall back to the operator scan
(which strips one quote layer, line 128); both paths then pass through the
final strip of line 133. -/
def parseWherePart (wp : String) : Except QueryError WherePred :=
  match pyShlex wp with
  | none => .error .whereQuotes
  | some [c, o, v] => .ok ⟨c, o, stripQuote v⟩
  | some _ =>
    let joined := pyStrip wp
    match opScanList opOrder joined with
    | some (l, o, r) => .ok ⟨pyStrip l, o, stripQuote (stripQuote (pyStrip r))⟩
    | none => .error .malformedWhere

/-- Python `from_part.split()[0].strip()` on an already stripped, nonempty
segment: the leading whitespace-free run. -/
def firstToken (s : String) : String := ⟨s.data.takeWhile (fun c => !pyWs c)⟩

/-- `parse_query(raw)` (lines 39-137).  The absent-WHERE case and an empty
where segment are merged (`where_part` falsy in both).  Keyword positions
are looked up in the upper-cased string and sliced out of the original. -/
def parse_query (raw : String) : Except QueryError ParsedQuery :=
  if pyStrip raw = "" then .error .emptyQuery
  else
    let up := pyUpper raw
    if !containsSub up "SELECT" || !containsSub up "FROM" then .error .missingClause
    else
      match strFindFrom up "SELECT" 0 with
      | none => .error .missingClause
      | some selIdx =>
        match strFindFrom up "FROM" selIdx with
        | none => .error .missingFromAfterSelect
        | some fromIdx =>
          let fw : String × String :=
            match strFindFrom up "WHERE" fromIdx with
            | none => (strSliceFrom raw (fromIdx + 4), "")
            | some wIdx => (strSlice raw (fromIdx + 4) wIdx, strSliceFrom raw (wIdx + 5))
          let select_part := pyStrip (strSlice raw (selIdx + 6) fromIdx)
          let from_part := pyStrip fw.1
          let where_part := fw.2
          if select_part = "" then .error .emptySelect
          else if from_part = "" then .error .emptyFrom
          else
            match parseSelectList (splitSelect select_part) with
            | .error e => .error e
            | .ok sel =>
              let table := firstToken from_part
              if where_part = "" then .ok ⟨sel, table, none⟩
              else
                match parseWherePart where_part with
                | .error e => .error e
                | .ok w => .ok ⟨sel, table, some w⟩

/-! ## `execute` (lines 187-219) -/

/-- Line 193's aggregate test: the item upper-cases to a `COUNT(` call. -/
def isCountItem (s : String) : Bool := strStarts (pyUpper s) "COUNT("

/-- Line 199: `cnt[cnt.find("(") + 1 : cnt.rfind(")")].strip()`. -/
def countInner (cnt : String) : String :=
  pyStrip (pySliceI cnt (findIdxInt cnt "(" + 1) (rfindIdxInt cnt ")"))

/-- Line 204's guard: `len(filtered) > 0 and col not in filtered[0]` fails;
so the check passes when the filtered set is empty or the first row has the
column. -/
def colCheck : List Row → String → Bool
  | [], _ => true
  | r :: _, c => hasKey r c

/-- One `COUNT` item of the aggregate loop (lines 198-207): `*` counts the
filtered rows, a column name counts its non-empty cells after the first-row
existence check. -/
def countOne (cnt : String) (filtered : List Row) : Except QueryError (String × Nat) :=
  if countInner cnt = "*" then .ok ("*", filtered.length)
  else if colCheck filtered (countInner cnt) then
    .ok (countInner cnt,
      (filtered.filter (fun r => !(rget r (countInner cnt) = "" : Bool))).length)
  else .error (.unknownColumnCount (countInner cnt))

/-- The aggregate loop over all count items, aborting on the first error. -/
def countLoop : List String → List Row → Except QueryError (List (String × Nat))
  | [], _ => .ok []
  | c :: rest, filtered => do
    let p ← countOne c filtered
    let ps ← countLoop rest filtered
    .ok (p :: ps)

/-- The projection validation loop (lines 215-217). -/
def checkCols : List String → Row → Except QueryError Unit
  | [], _ => .ok ()
  | c :: rest, r =>
    if hasKey r c then checkCols rest r else .error (.unknownColumnSelect c)

/-- `execute(parsed, table_data)` (lines 187-219): filter, then either the
aggregate branch (with the mixing check), the wildcard projection (which
subscripts `table_data[0]` when everything is empty: `IndexError`), or the
explicit column projection. -/
def execute (p : ParsedQuery) (tableData : List Row) : Except PyErr Output :=
  match apply_where tableData p.whereP with
  | .error e => .error (.qerr e)
  | .ok filtered =>
    let counts := p.select.filter isCountItem
    if counts.isEmpty then
      if p.select = ["*"] then
        match filtered, tableData with
        | r :: rest, _ => .ok (.table (r :: rest) (keys r))
        | [], r :: _ => .ok (.table [] (keys r))
        | [], [] => .error .indexError
      else
        match filtered with
        | [] => .ok (.table [] p.select)
        | r :: rest =>
          match checkCols p.select r with
          | .error e => .error (.qerr e)
          | .ok _ => .ok (.table (r :: rest) p.select)
    else if p.select.length ≠ counts.length then .error (.qerr .mixedAggregate)
    else
      match countLoop counts filtered with
      | .error e => .error (.qerr e)
      | .ok l => .ok (.counts l)

example : pyShlex " a == 5" = some ["a", "==", "5"] := by decide
example : pyShlex " age>=5" = some ["age>=5"] := by decide
example : parse_query "SELECT * FROM t WHERE age>=5" =
    .ok ⟨["*"], "t", some ⟨"age", ">=", "5"⟩⟩ := by decide
example : parse_query "SELECT a, COUNT(b) FROM t" =
    .ok ⟨["a", "COUNT(b)"], "t", none⟩ := by decide
example : parse_query "SELECT * FROM t" = .ok ⟨["*"], "t", none⟩ := by decide
example : parse_query "hello" = .error .missingClause := by decide
example : execute ⟨["COUNT(*)"], "t", none⟩ [] = .ok (.counts [("*", 0)]) := by decide

/-! ## Helper lemmas -/

/-- A single-quote string, used to build test literals. -/
def sqs : String := ⟨[squote]⟩

/-- `apply_where` on an empty row set ignores the predicate entirely. -/
theorem applyWhereNil (w : Option WherePred) : apply_where [] w = .ok [] := by
  cases w <;> rfl

/-- C8: applying any predicate (or none) to an empty row set never raises
`UnknownColumn` and returns the empty row set: the column check uses the
first row as representative and is skipped when the row set is empty, so
an empty table passes column validation vacuously. -/
theorem apply_where_empty_rowset (w : Option WherePred) : apply_where [] w = .ok [] :=
  applyWhereNil w

/-- C9: executing a wildcard-only select (any predicate or none) against a
table with zero rows raises the Python `IndexError` from `table_data[0]`,
which is not the engine's `QueryError`. -/
theorem wildcard_empty_table_index_error (t : String) (w : Option WherePred) :
    execute ⟨["*"], t, w⟩ [] = .error .indexError ∧ PyErr.isQueryErr .indexError = false := by
  refine ⟨?_, rfl⟩
  unfold execute
  rw [applyWhereNil]
  rfl

/-- The three-token fast path of the WHERE parser: the tokens are read
positionally and only the final quote-strip (line 133) touches the value. -/
theorem parseWhere_threeTokens (wp c o v : String) (h : pyShlex wp = some [c, o, v]) :
    parseWherePart wp = .ok ⟨c, o, stripQuote v⟩ := by
  unfold parseWherePart
  rw [h]

/-- C10: a three-token WHERE clause with middle token `==` parses with `==`
as the operator, and the evaluator treats `==` exactly as `=`, both
numerically and textually, although `==` is not in the documented operator
set. -/
theorem double_equals_operator :
    parse_query "SELECT * FROM t WHERE a == 5" =
        .ok ⟨["*"], "t", some ⟨"a", "==", "5"⟩⟩
  ∧ (∀ wp c v : String, pyShlex wp = some [c, "==", v] →
      parseWherePart wp = .ok ⟨c, "==", stripQuote v⟩)
  ∧ ∀ (row : Row) (col val : String),
      rowMatch row ⟨col, "==", val⟩ = rowMatch row ⟨col, "=", val⟩ := by
  refine ⟨by decide, fun wp c v h => parseWhere_threeTokens wp c "==" v h, ?_⟩
  intro row col val
  unfold rowMatch
  cases pyFloat? (rget row col) <;> cases pyFloat? val <;> rfl

/-- C10 witness: the general three-token part applied at `" a == 5"`. -/
theorem double_equals_operator_witness :
    parseWherePart " a == 5" = .ok ⟨"a", "==", stripQuote "5"⟩ :=
  double_equals_operator.2.1 " a == 5" "a" "5" (by decide)

/-- C1: for every row and predicate the evaluator parses the cell and the
literal as floats independently; when both parse the comparison is numeric
(on the parsed values) and all six operators succeed; when either fails the
comparison is textual, only `=` and `!=`/`<>` succeed, and every ordering
operator fails with `InvalidOperatorForStrings`. -/
theorem where_numeric_vs_string_dispatch (row : Row) (col op val : String) :
    (((pyFloat? (rget row col)).isSome && (pyFloat? val).isSome) = true →
      (op ∈ ["=", "!=", "<>", "<", ">", "<=", ">="] →
        ∃ m, rowMatch row ⟨col, op, val⟩ = .ok m)
    ∧ ∀ a b, pyFloat? (rget row col) = some a → pyFloat? val = some b →
        rowMatch row ⟨col, "<", val⟩ = .ok (pyLtB a b)
      ∧ rowMatch row ⟨col, "=", val⟩ = .ok (pyEqB a b))
  ∧ (((pyFloat? (rget row col)).isSome && (pyFloat? val).isSome) = false →
      ((op = "=" ∨ op = "!=" ∨ op = "<>") → ∃ m, rowMatch row ⟨col, op, val⟩ = .ok m)
    ∧ rowMatch row ⟨col, "=", val⟩ = .ok (rget row col = val)
    ∧ ((op = "<" ∨ op = ">" ∨ op = "<=" ∨ op = ">=") →
        rowMatch row ⟨col, op, val⟩ = .error (.invalidOperatorForStrings op))) := by
  unfold rowMatch
  cases h1 : pyFloat? (rget row col) <;> cases h2 : pyFloat? val <;>
    simp only [Option.isSome_none, Option.isSome_some, Bool.false_and, Bool.and_false,
      Bool.true_and, Bool.and_true]
  case none.none =>
    constructor
    · intro h
      simp at h
    · intro hf
      refine ⟨?_, rfl, ?_⟩
      · rintro (rfl | rfl | rfl) <;> exact ⟨_, rfl⟩
      · rintro (rfl | rfl | rfl | rfl) <;> rfl
  case none.some b =>
    constructor
    · intro h
      simp at h
    · intro hf
      refine ⟨?_, rfl, ?_⟩
      · rintro (rfl | rfl | rfl) <;> exact ⟨_, rfl⟩
      · rintro (rfl | rfl | rfl | rfl) <;> rfl
  case some.none a =>
    constructor
    · intro h
      simp at h
    · intro hf
      refine ⟨?_, rfl, ?_⟩
      · rintro (rfl | rfl | rfl) <;> exact ⟨_, rfl⟩
      · rintro (rfl | rfl | rfl | rfl) <;> rfl
  case some.some a b =>
    constructor
    case right =>
      intro h
      simp at h
    case left =>
      intro hf
      refine ⟨?_, ?_⟩
      · intro hop
        simp only [List.mem_cons, List.not_mem_nil, or_false] at hop
        rcases hop with rfl | rfl | rfl | rfl | rfl | rfl | rfl <;> exact ⟨_, rfl⟩
      · intro a2 b2 ha hb
        cases ha; cases hb; exact ⟨rfl, rfl⟩

/-- C1 witness: a numeric comparison (`"35" > "30"`) succeeds, and an
ordering comparison against a non-numeric literal fails for strings. -/
theorem where_numeric_vs_string_dispatch_witness :
    (∃ m, rowMatch [("age", "35")] ⟨"age", ">", "30"⟩ = .ok m)
  ∧ rowMatch [("age", "35")] ⟨"age", "<", "x"⟩ =
      .error (.invalidOperatorForStrings "<") := by
  constructor
  · exact (where_numeric_vs_string_dispatch [("age", "35")] "age" ">" "30").1
      (by decide) |>.1 (by decide)
  · exact ((where_numeric_vs_string_dispatch [("age", "35")] "age" "<" "x").2
      (by decide)).2.2 (Or.inl rfl)

/-- C7 counterexample: the empty raw string lacks `SELECT`, yet parsing
fails with `EmptyQuery` (line 40-41), not `MissingClause`. -/
theorem missing_clause_cex :
    containsSub (pyUpper "") "SELECT" = false
  ∧ parse_query "" = .error .emptyQuery
  ∧ QueryError.emptyQuery ≠ QueryError.missingClause := by
  exact ⟨rfl, rfl, by decide⟩

/-- C7 (amended): for every raw string that does not strip to empty, if
`SELECT` or `FROM` is absent from the upper-cased string, parsing fails
with `MissingClause`.  (A whitespace-only string fails with `EmptyQuery`
first.) -/
theorem missing_clause_nonempty (raw : String) (h0 : pyStrip raw ≠ "")
    (h : containsSub (pyUpper raw) "SELECT" = false
       ∨ containsSub (pyUpper raw) "FROM" = false) :
    parse_query raw = .error .missingClause := by
  unfold parse_query
  rw [if_neg h0]
  rcases h with h | h <;> simp [h]

/-- C7 witness: `"x"` is nonempty and contains neither keyword. -/
theorem missing_clause_nonempty_witness :
    parse_query "x" = .error .missingClause :=
  missing_clause_nonempty "x" (by decide) (Or.inl (by decide))

/-- C5 counterexample: for the doubly-quoted literal in
`WHERE name=''x''`, the fallback path strips a layer (line 128) and the
shared post-step strips a second layer (line 133), so the parsed literal is
`x`, not the single-layer strip `'x'`. -/
theorem where_quote_strip_cex :
    parse_query ("SELECT * FROM t WHERE name=" ++ sqs ++ sqs ++ "x" ++ sqs ++ sqs) =
        .ok ⟨["*"], "t", some ⟨"name", "=", "x"⟩⟩
  ∧ stripQuote (sqs ++ sqs ++ "x" ++ sqs ++ sqs) = sqs ++ "x" ++ sqs
  ∧ (sqs ++ "x" ++ sqs : String) ≠ "x" := by
  exact ⟨by decide, by decide, by decide⟩

/-- Unfolding of `isWrapped` on a two-or-more character string. -/
theorem isWrapped_cons (c d : Char) (rest : List Char) :
    isWrapped ⟨c :: d :: rest⟩ =
      decide ((c = (d :: rest).getLastD c) ∧ (c = squote ∨ c = dquote)) := rfl

/-- Unfolding of `stripQuote` on a two-or-more character string. -/
theorem stripQuote_cons (c d : Char) (rest : List Char) :
    stripQuote ⟨c :: d :: rest⟩ =
      if (c = (d :: rest).getLastD c) ∧ (c = squote ∨ c = dquote) then ⟨(d :: rest).dropLast⟩
      else ⟨c :: d :: rest⟩ := rfl

/-- C5 (amended): the final strip of line 133 removes exactly one layer
from a quote-wrapped value (and is the identity otherwise), and on the
three-token path it is the only strip applied to the literal; the fallback
path applies the same strip twice (line 128 then line 133), so a
doubly-quoted literal loses both layers.  `WHERE name="O'Brien"` keeps the
inner apostrophe and loses only the outer double quotes. -/
theorem where_quote_strip :
    parse_query ("SELECT * FROM t WHERE name=\"O" ++ sqs ++ "Brien\"") =
        .ok ⟨["*"], "t", some ⟨"name", "=", "O" ++ sqs ++ "Brien"⟩⟩
  ∧ (∀ wp c o v : String, pyShlex wp = some [c, o, v] →
      parseWherePart wp = .ok ⟨c, o, stripQuote v⟩)
  ∧ (∀ v : String, isWrapped v = true →
      ∃ q cs, (q = squote ∨ q = dquote) ∧ v.data = q :: (cs ++ [q])
        ∧ (stripQuote v).data = cs)
  ∧ (∀ v : String, isWrapped v = false → stripQuote v = v) := by
  refine ⟨by decide, fun wp c o v h => parseWhere_threeTokens wp c o v h, ?_, ?_⟩
  · intro v hw
    rcases v with ⟨_ | ⟨c, _ | ⟨d, rest⟩⟩⟩
    · simp [isWrapped] at hw
    · simp [isWrapped] at hw
    · rw [isWrapped_cons, decide_eq_true_eq] at hw
      have h3 : (d :: rest).dropLast ++ [c] = d :: rest := by
        rw [hw.1]
        exact List.dropLast_concat_getLast (by simp)
      refine ⟨c, (d :: rest).dropLast, hw.2, ?_, ?_⟩
      · show c :: d :: rest = c :: ((d :: rest).dropLast ++ [c])
        rw [h3]
      · rw [stripQuote_cons, if_pos hw]
  · intro v hw
    rcases v with ⟨_ | ⟨c, _ | ⟨d, rest⟩⟩⟩
    · rfl
    · rfl
    · rw [isWrapped_cons] at hw
      rw [stripQuote_cons, if_neg (of_decide_eq_false hw)]

/-- C5 witness: the three-token part at `"a = 5"`, and the single-strip
part at the wrapped value `"x"` in double quotes. -/
theorem where_quote_strip_witness :
    parseWherePart " a = 5" = .ok ⟨"a", "=", stripQuote "5"⟩
  ∧ ∃ q cs, (q = squote ∨ q = dquote) ∧ ("\"x\"" : String).data = q :: (cs ++ [q])
      ∧ (stripQuote "\"x\"").data = cs := by
  exact ⟨where_quote_strip.2.1 " a = 5" "a" "=" "5" (by decide),
    where_quote_strip.2.2.1 "\"x\"" (by decide)⟩

/-- `firstIdx` finds a genuine first occurrence: the index is in range, the
pattern matches there, and at no earlier index. -/
theorem firstIdx_spec (sub : List Char) :
    ∀ (cs : List Char) (i : Nat), firstIdx sub cs = some i →
      i ≤ cs.length ∧ sub.isPrefixOf (cs.drop i) = true
        ∧ ∀ k, k < i → sub.isPrefixOf (cs.drop k) = false := by
  intro cs
  induction cs with
  | nil =>
    intro i h
    unfold firstIdx at h
    by_cases hp : sub.isPrefixOf ([] : List Char)
    · rw [if_pos hp] at h
      cases h
      exact ⟨Nat.le_refl 0, by simpa using hp, fun k hk => absurd hk (Nat.not_lt_zero k)⟩
    · rw [if_neg hp] at h
      cases h
  | cons c t ih =>
    intro i h
    unfold firstIdx at h
    by_cases hp : sub.isPrefixOf (c :: t) = true
    · rw [if_pos hp] at h
      cases h
      exact ⟨Nat.zero_le _, hp, fun k hk => absurd hk (Nat.not_lt_zero k)⟩
    · rw [if_neg hp] at h
      rcases Option.map_eq_some'.mp h with ⟨i2, hi2, rfl⟩
      obtain ⟨hle, hpre, hearlier⟩ := ih i2 hi2
      refine ⟨Nat.succ_le_succ hle, hpre, ?_⟩
      intro k hk
      cases k with
      | zero => simpa using Bool.eq_false_iff.mpr hp
      | succ k2 =>
        exact hearlier k2 (Nat.lt_of_succ_lt_succ hk)

/-- A matched pattern can be cut out of the list. -/
theorem isPrefixOf_reconstruct (sub cs : List Char) (h : sub.isPrefixOf cs = true) :
    cs = sub ++ cs.drop sub.length := by
  rw [List.isPrefixOf_iff_prefix] at h
  obtain ⟨t, rfl⟩ := h
  rw [List.drop_left]

/-- The operator scan tries the operators in order and commits to the first
one that occurs, splitting at its first occurrence. -/
theorem opScan_spec :
    ∀ (ops : List String) (j l o r : String), opScanList ops j = some (l, o, r) →
      ∃ pre post, ops = pre ++ o :: post
        ∧ (∀ o2 ∈ pre, firstIdx o2.data j.data = none)
        ∧ pySplitFirst j o = some (l, r) := by
  intro ops
  induction ops with
  | nil => intro j l o r h; cases h
  | cons o0 rest ih =>
    intro j l o r h
    unfold opScanList at h
    rcases h0 : pySplitFirst j o0 with _ | ⟨l0, r0⟩
    · rw [h0] at h
      obtain ⟨pre, post, hops, hnone, hsplit⟩ := ih j l o r h
      refine ⟨o0 :: pre, post, by rw [hops, List.cons_append], ?_, hsplit⟩
      intro o2 ho2
      rcases List.mem_cons.mp ho2 with rfl | hmem
      · have := h0
        unfold pySplitFirst at this
        exact Option.map_eq_none'.mp this
      · exact hnone o2 hmem
    · rw [h0] at h
      cases h
      exact ⟨[], rest, rfl, fun o2 ho2 => absurd ho2 (List.not_mem_nil o2), h0⟩

/-- C6: the fallback scan (used when the WHERE segment does not tokenize to
exactly three tokens) searches the operators in the order
`>=, <=, !=, >, <, =` and splits the segment at the first occurrence of the
first operator present, so a two-character operator is never misparsed as
its one-character prefix; in particular `age>=5` parses as
`(age, >=, 5)`. -/
theorem fallback_op_scan :
    parse_query "SELECT * FROM t WHERE age>=5" =
        .ok ⟨["*"], "t", some ⟨"age", ">=", "5"⟩⟩
  ∧ ∀ (j l o r : String), opScanList opOrder j = some (l, o, r) →
      ∃ pre post, opOrder = pre ++ o :: post
        ∧ (∀ o2 ∈ pre, firstIdx o2.data j.data = none)
        ∧ ∃ i, firstIdx o.data j.data = some i
            ∧ j.data = l.data ++ (o.data ++ r.data)
            ∧ l.data.length = i
            ∧ ∀ k, k < i → o.data.isPrefixOf (j.data.drop k) = false := by
  refine ⟨by decide, ?_⟩
  intro j l o r h
  obtain ⟨pre, post, hops, hnone, hsplit⟩ := opScan_spec opOrder j l o r h
  refine ⟨pre, post, hops, hnone, ?_⟩
  unfold pySplitFirst at hsplit
  rcases hidx : firstIdx o.data j.data with _ | i
  · rw [hidx] at hsplit
    cases hsplit
  · rw [hidx, Option.map_some'] at hsplit
    have hl : (⟨j.data.take i⟩ : String) = l := congrArg Prod.fst (Option.some.inj hsplit)
    have hr : (⟨j.data.drop (i + o.data.length)⟩ : String) = r :=
      congrArg Prod.snd (Option.some.inj hsplit)
    obtain ⟨hle, hpre, hearlier⟩ := firstIdx_spec o.data j.data i hidx
    have hcut : j.data.drop i = o.data ++ (j.data.drop i).drop o.data.length :=
      isPrefixOf_reconstruct o.data (j.data.drop i) hpre
    have hdd : (j.data.drop i).drop o.data.length = j.data.drop (i + o.data.length) := by
      rw [List.drop_drop, Nat.add_comm]
    refine ⟨i, rfl, ?_, ?_, hearlier⟩
    · rw [← hl, ← hr]
      show j.data = j.data.take i ++ (o.data ++ j.data.drop (i + o.data.length))
      rw [← hdd, ← hcut, List.take_append_drop]
    · rw [← hl]
      show (j.data.take i).length = i
      rw [List.length_take]
      exact Nat.min_eq_left hle

/-- C6 witness: the scan part applied to the segment `age>=5`. -/
theorem fallback_op_scan_witness :
    ∃ pre post, opOrder = pre ++ ">=" :: post
      ∧ (∀ o2 ∈ pre, firstIdx o2.data "age>=5".data = none)
      ∧ ∃ i, firstIdx ">=".data "age>=5".data = some i
          ∧ "age>=5".data = "age".data ++ (">=".data ++ "5".data)
          ∧ "age".data.length = i
          ∧ ∀ k, k < i → ">=".data.isPrefixOf ("age>=5".data.drop k) = false :=
  fallback_op_scan.2 "age>=5" "age" ">=" "5" (by decide)

/-- When every select item is an aggregate, `execute` reaches the count
loop: the `counts` filter keeps everything, so the mixing check passes. -/
theorem execute_counts_branch (sel : List String) (tbl : String) (w : Option WherePred)
    (data filtered : List Row) (hw : apply_where data w = .ok filtered)
    (hall : ∀ s ∈ sel, isCountItem s = true) (hne : sel ≠ []) :
    execute ⟨sel, tbl, w⟩ data =
      match countLoop sel filtered with
      | .error e => .error (.qerr e)
      | .ok l => .ok (.counts l) := by
  unfold execute
  rw [hw]
  have hfil : sel.filter isCountItem = sel := List.filter_eq_self.mpr hall
  simp only [hfil]
  cases sel with
  | nil => exact absurd rfl hne
  | cons s0 srest =>
    rw [if_neg (by simp), if_neg (fun hh => hh rfl)]

/-- The count loop is a `map` when every item succeeds. -/
theorem countLoop_eq_map (filtered : List Row) (cval : String → String × Nat) :
    ∀ l : List String, (∀ s ∈ l, countOne s filtered = .ok (cval s)) →
      countLoop l filtered = .ok (l.map cval) := by
  intro l
  induction l with
  | nil => intro _; rfl
  | cons s t ih =>
    intro h
    have hs := h s (List.mem_cons_self s t)
    have ht := ih (fun x hx => h x (List.mem_cons_of_mem s hx))
    unfold countLoop
    rw [hs, ht]
    rfl

/-- One count item succeeds when its target is `*` or passes the first-row
check, returning the semantics the spec describes. -/
theorem countOne_eq (s : String) (filtered : List Row)
    (hc : countInner s ≠ "*" → colCheck filtered (countInner s) = true) :
    countOne s filtered = .ok (countInner s,
      if countInner s = "*" then filtered.length
      else (filtered.filter (fun r => !(rget r (countInner s) = "" : Bool))).length) := by
  unfold countOne
  by_cases h : countInner s = "*"
  · rw [if_pos h, if_pos h, h]
  · rw [if_neg h, if_neg h, if_pos (hc h)]

/-- C2: for a query whose select items are all aggregates (and whose filter
and column checks go through), execution yields one pair per item: the
filtered row count for `*`, and the number of filtered rows whose cell for
the named column is non-empty text otherwise (so `0` on an empty filtered
set, and whitespace-only cells count as non-empty). -/
theorem count_aggregate_semantics (p : ParsedQuery) (data filtered : List Row)
    (hall : ∀ s ∈ p.select, isCountItem s = true) (hne : p.select ≠ [])
    (hw : apply_where data p.whereP = .ok filtered)
    (hc : ∀ s ∈ p.select, countInner s ≠ "*" → colCheck filtered (countInner s) = true) :
    execute p data = .ok (.counts (p.select.map (fun s =>
      (countInner s,
        if countInner s = "*" then filtered.length
        else (filtered.filter (fun r => !(rget r (countInner s) = "" : Bool))).length)))) := by
  obtain ⟨sel, tbl, w⟩ := p
  rw [execute_counts_branch sel tbl w data filtered hw hall hne]
  rw [countLoop_eq_map filtered _ sel (fun s hs => countOne_eq s filtered (hc s hs))]

/-- C2 witness: `COUNT(*)` and `COUNT(name)` over two rows, one with a
whitespace-only `name` cell (counted) and one with an empty cell (not). -/
theorem count_aggregate_semantics_witness :
    execute ⟨["COUNT(*)", "COUNT(name)"], "t", none⟩ [[("name", " ")], [("name", "")]] =
      .ok (.counts [("*", 2), ("name", 1)]) := by
  rw [count_aggregate_semantics ⟨["COUNT(*)", "COUNT(name)"], "t", none⟩
      [[("name", " ")], [("name", "")]] [[("name", " ")], [("name", "")]]
      (by decide) (by decide) rfl (by decide)]
  rfl

/-- A list with an element failing the filter loses length under `filter`. -/
theorem length_filter_lt_of_mem_false (l : List String) (q : String → Bool) (x : String)
    (hx : x ∈ l) (hf : q x = false) : (l.filter q).length < l.length := by
  induction l with
  | nil => cases hx
  | cons a t ih =>
    rcases List.mem_cons.mp hx with rfl | hmem
    · rw [List.filter_cons, hf]
      simp only [Bool.false_eq_true, if_false, List.length_cons]
      exact Nat.lt_succ_of_le (List.length_filter_le q t)
    · rw [List.filter_cons]
      cases hqa : q a
      · simp only [Bool.false_eq_true, if_false, List.length_cons]
        exact Nat.lt_succ_of_lt (ih hmem)
      · simp only [if_true, List.length_cons]
        exact Nat.succ_lt_succ (ih hmem)

/-- C3 counterexample: a mixed select list parses fine, but when its WHERE
predicate names an absent column, execution fails with the predicate's
`UnknownColumn` (the filter runs first, line 191), not `MixedAggregate`. -/
theorem mixed_aggregate_cex :
    parse_query "SELECT a, COUNT(b) FROM t WHERE zz=1" =
        .ok ⟨["a", "COUNT(b)"], "t", some ⟨"zz", "=", "1"⟩⟩
  ∧ execute ⟨["a", "COUNT(b)"], "t", some ⟨"zz", "=", "1"⟩⟩ [[("a", "1")]] =
      .error (.qerr (.unknownColumnWhere "zz"))
  ∧ QueryError.unknownColumnWhere "zz" ≠ QueryError.mixedAggregate := by
  exact ⟨by decide, by decide, by decide⟩

/-- C3 (amended): a mixed aggregate/non-aggregate select list is accepted
by the parser, and execution fails with `MixedAggregate` provided the WHERE
filter itself succeeds (the filter runs before the mixing check). -/
theorem mixed_aggregate_exec_time :
    parse_query "SELECT a, COUNT(b) FROM t" = .ok ⟨["a", "COUNT(b)"], "t", none⟩
  ∧ ∀ (p : ParsedQuery) (data filtered : List Row),
      apply_where data p.whereP = .ok filtered →
      (∃ s ∈ p.select, isCountItem s = true) →
      (∃ s ∈ p.select, isCountItem s = false) →
      execute p data = .error (.qerr .mixedAggregate) := by
  refine ⟨by decide, ?_⟩
  rintro ⟨sel, tbl, w⟩ data filtered hw ⟨sc, hsc, hsct⟩ ⟨sn, hsn, hsnf⟩
  unfold execute
  rw [hw]
  have hmemf : sc ∈ sel.filter isCountItem := List.mem_filter.mpr ⟨hsc, hsct⟩
  have hlen : (sel.filter isCountItem).length < sel.length :=
    length_filter_lt_of_mem_false sel isCountItem sn hsn hsnf
  have hie : (sel.filter isCountItem).isEmpty = false := by
    cases hh : sel.filter isCountItem with
    | nil => rw [hh] at hmemf; cases hmemf
    | cons a t => rfl
  simp only []
  rw [if_neg (by simp [hie]), if_pos (Nat.ne_of_gt hlen)]

/-- C3 witness: the general part applied to a concrete mixed query with no
predicate. -/
theorem mixed_aggregate_exec_time_witness :
    execute ⟨["a", "COUNT(b)"], "t", none⟩ [] = .error (.qerr .mixedAggregate) :=
  mixed_aggregate_exec_time.2 ⟨["a", "COUNT(b)"], "t", none⟩ [] [] rfl
    ⟨"COUNT(b)", by decide, by decide⟩ ⟨"a", by decide, by decide⟩

/-- On an empty filtered set every count item yields `0` without any
column check. -/
theorem countOne_nil (s : String) : countOne s [] = .ok (countInner s, 0) := by
  unfold countOne
  by_cases h : countInner s = "*"
  · rw [if_pos h, ← h]
    rfl
  · rw [if_neg h, if_pos (show colCheck [] (countInner s) = true from rfl)]
    rfl

/-- With a non-empty filtered set, if some count item names a column absent
from the first row, the count loop fails with `UnknownColumn` for an absent
column. -/
theorem countLoop_first_error (r : Row) (rest : List Row) :
    ∀ l : List String,
      (∃ s ∈ l, countInner s ≠ "*" ∧ hasKey r (countInner s) = false) →
      ∃ c, hasKey r c = false ∧ countLoop l (r :: rest) = .error (.unknownColumnCount c) := by
  intro l
  induction l with
  | nil => rintro ⟨s, hs, _⟩; cases hs
  | cons s0 t ih =>
    rintro ⟨s, hs, hni, hnk⟩
    by_cases h0 : countInner s0 ≠ "*" ∧ hasKey r (countInner s0) = false
    · refine ⟨countInner s0, h0.2, ?_⟩
      unfold countLoop countOne
      rw [if_neg h0.1, if_neg (by simp [colCheck, h0.2])]
      rfl
    · have hone : ∃ pr, countOne s0 (r :: rest) = .ok pr := by
        unfold countOne
        by_cases hin : countInner s0 = "*"
        · rw [if_pos hin]
          exact ⟨_, rfl⟩
        · have hk : hasKey r (countInner s0) = true := by
            cases hkk : hasKey r (countInner s0)
            · exact absurd ⟨hin, hkk⟩ h0
            · rfl
          rw [if_neg hin, if_pos (show colCheck (r :: rest) (countInner s0) = true from hk)]
          exact ⟨_, rfl⟩
      obtain ⟨pr, hpr⟩ := hone
      have hmem : s ∈ t := by
        rcases List.mem_cons.mp hs with rfl | hmem
        · exact absurd ⟨hni, hnk⟩ h0
        · exact hmem
      obtain ⟨c, hc, herr⟩ := ih ⟨s, hmem, hni, hnk⟩
      refine ⟨c, hc, ?_⟩
      unfold countLoop
      rw [hpr, herr]
      rfl

/-- C4 counterexample: a non-empty table whose rows are all filtered out:
the first-row check is skipped because the *filtered* set is empty (even
though the table is not), so `COUNT(zz)` on an absent column returns `0`
instead of failing with `UnknownColumn`. -/
theorem count_unknown_column_cex :
    parse_query "SELECT COUNT(zz) FROM t WHERE a=2" =
        .ok ⟨["COUNT(zz)"], "t", some ⟨"a", "=", "2"⟩⟩
  ∧ execute ⟨["COUNT(zz)"], "t", some ⟨"a", "=", "2"⟩⟩ [[("a", "1")]] =
      .ok (.counts [("zz", 0)])
  ∧ execute ⟨["COUNT(zz)"], "t", some ⟨"a", "=", "2"⟩⟩ [[("a", "1")]] ≠
      .error (.qerr (.unknownColumnCount "zz")) := by
  exact ⟨by decide, by decide, by decide⟩

/-- C4 (amended): for an all-aggregate select, a column-name target is
checked against the first *filtered* row: with a non-empty filtered set an
absent column fails with `UnknownColumn`; with an empty filtered set the
check is skipped regardless of whether the table itself is empty, and every
item yields `0`. -/
theorem count_unknown_column_check :
    (∀ (p : ParsedQuery) (data : List Row) (r : Row) (rest : List Row),
      (∀ t ∈ p.select, isCountItem t = true) →
      apply_where data p.whereP = .ok (r :: rest) →
      (∃ s ∈ p.select, countInner s ≠ "*" ∧ hasKey r (countInner s) = false) →
      ∃ c, hasKey r c = false ∧ execute p data = .error (.qerr (.unknownColumnCount c)))
  ∧ ∀ (p : ParsedQuery) (data : List Row),
      (∀ t ∈ p.select, isCountItem t = true) → p.select ≠ [] →
      apply_where data p.whereP = .ok [] →
      execute p data = .ok (.counts (p.select.map (fun s => (countInner s, 0)))) := by
  constructor
  · rintro ⟨sel, tbl, w⟩ data r rest hall hw hex
    obtain ⟨c, hc, herr⟩ := countLoop_first_error r rest sel hex
    refine ⟨c, hc, ?_⟩
    rw [execute_counts_branch sel tbl w data (r :: rest) hw hall
      (by rintro rfl; obtain ⟨s, hs, _⟩ := hex; cases hs), herr]
  · rintro ⟨sel, tbl, w⟩ data hall hne hw
    rw [execute_counts_branch sel tbl w data [] hw hall hne]
    rw [countLoop_eq_map [] _ sel (fun s _ => countOne_nil s)]

/-- C4 witness: both parts at concrete inputs — an absent column with a
non-empty filtered set fails, and an empty filtered set yields zeros. -/
theorem count_unknown_column_check_witness :
    (∃ c, hasKey [("a", "1")] c = false
      ∧ execute ⟨["COUNT(zz)"], "t", none⟩ [[("a", "1")]] =
          .error (.qerr (.unknownColumnCount c)))
  ∧ execute ⟨["COUNT(zz)"], "t", some ⟨"a", "=", "2"⟩⟩ [[("a", "1")]] =
      .ok (.counts (["COUNT(zz)"].map (fun s => (countInner s, 0)))) := by
  constructor
  · exact count_unknown_column_check.1 ⟨["COUNT(zz)"], "t", none⟩ [[("a", "1")]]
      [("a", "1")] [] (by decide) rfl ⟨"COUNT(zz)", by decide, by decide, by decide⟩
  · exact count_unknown_column_check.2 ⟨["COUNT(zz)"], "t", some ⟨"a", "=", "2"⟩⟩
      [[("a", "1")]] (by decide) (by decide) (by decide)
